import Mathlib

/-!
Shallow embedding of `gigapath/slide_encoder.py` (PathLLM repository): the
LongNetViT slide encoder with its position indexer, position-embedding table,
mask handling, self/cross fusion blocks and forward orchestration, together
with theorems settling the specification claims C1-C10.

Modelling conventions:
* machine floats are modelled as rationals; `torch.floor` is `Int.floor`;
* tensors are nested lists: a `Vec` is one channel vector, a `Mat` is a
  sequence of vectors of shape `[L, D]`, a `Batch` has shape `[N, L, D]`;
* external collaborators (the LongNet encoder, `nn.MultiheadAttention`,
  `nn.LayerNorm`, timm `Mlp`, the learned `LayerScale`) are opaque functions
  supplied as parameters, exactly as the spec treats them ("out of scope ...
  consumed only through a fixed call contract");
* the stochastic wrappers written out in the source (`DropPath` around the
  two `TransformerBlock` sublayers, `nn.Dropout` inside `CrossAttention`)
  are modelled with explicit streams of Bernoulli draws plus the
  training/eval flag, so eval-mode determinism is a provable statement;
* fallible tensor indexing (`self.pos_embed[:, pos, :]`) returns `Option`,
  with PyTorch's advanced-indexing semantics: a negative index `i` with
  `-size ≤ i` silently wraps to `size + i`, an index outside `[-size, size)`
  raises `IndexError` (modelled as `none`).
-/

namespace Gigapath

abbrev Vec := List ℚ
abbrev Mat := List Vec
abbrev Batch := List Mat
abbrev MaskRow := List ℚ
abbrev Mask := List MaskRow
abbrev BoolMask := List (List Bool)

/-- Map with the positional index, expressed through `zipWith` so that
shape lemmas follow from `zipWith` lemmas. -/
def mapWithIdx {α β : Type} (f : ℕ → α → β) (x : List α) : List β :=
  List.zipWith f (List.range x.length) x

/-- Effectful map over `Option`, written by direct recursion (the embedding
of a loop whose body may raise). -/
def optTraverse {α β : Type} (f : α → Option β) : List α → Option (List β)
  | [] => some []
  | a :: t => (f a).bind fun b => (optTraverse f t).bind fun r => some (b :: r)

/-- Shape predicate for a `[L, D]` tensor. -/
def matShape (x : Mat) (l d : ℕ) : Prop :=
  x.length = l ∧ ∀ v ∈ x, v.length = d

/-- Shape predicate for an `[N, L, D]` tensor. -/
def batchShape (x : Batch) (n l d : ℕ) : Prop :=
  x.length = n ∧ ∀ m ∈ x, matShape m l d

instance (x : Mat) (l d : ℕ) : Decidable (matShape x l d) := by
  unfold matShape; infer_instance

instance (x : Batch) (n l d : ℕ) : Decidable (batchShape x n l d) := by
  unfold batchShape; infer_instance

def vecAdd (a b : Vec) : Vec := List.zipWith (· + ·) a b

def matAdd (a b : Mat) : Mat := List.zipWith vecAdd a b

/-- Elementwise `+` on `[N, L, D]` tensors (same-shape broadcast case). -/
def batchAdd (x y : Batch) : Batch := List.zipWith matAdd x y

/-- `torch.cat(-, dim=1)`. -/
def batchCat (x y : Batch) : Batch := List.zipWith (· ++ ·) x y

/-- `x[:, :q, :]`. -/
def batchTake (q : ℕ) (x : Batch) : Batch := x.map (List.take q)

/-- Elementwise map over an `[N, L, D]` tensor (used for the final dtype cast). -/
def batchMap (f : ℚ → ℚ) (x : Batch) : Batch := x.map (List.map (List.map f))

def matSmul (c : ℚ) (m : Mat) : Mat := m.map (List.map (fun v => c * v))

/-- `x.shape[1]` of an `[N, L, D]` tensor (torch tensors are rectangular,
so the first row's length is the shared second dimension). -/
def dim1 (x : Batch) : ℕ :=
  match x with
  | [] => 0
  | h :: _ => h.length

/-- `LongNetViT.coords_to_pos` on one coordinate pair:
`floor(coord / patch_size)` per axis, then `row * slide_ngrids + col`. -/
def coordsToPosCell (G : ℕ) (patchSize : ℚ) (c : ℚ × ℚ) : ℤ :=
  ⌊c.1 / patchSize⌋ * G + ⌊c.2 / patchSize⌋

/-- `LongNetViT.coords_to_pos` on a coordinate tensor of shape `[N, L, 2]`. -/
def coords_to_pos (G : ℕ) (patchSize : ℚ) (coords : List (List (ℚ × ℚ))) :
    List (List ℤ) :=
  coords.map (List.map (coordsToPosCell G patchSize))

/-- PyTorch advanced-indexing semantics for one integer index into a
dimension of the given size: in-range indices are taken as-is, negative
indices with `-size ≤ i` silently wrap to `size + i`, everything else
raises `IndexError` (`none`). -/
def torchIndex (size : ℕ) (i : ℤ) : Option ℕ :=
  if 0 ≤ i ∧ i < (size : ℤ) then some i.toNat
  else if -(size : ℤ) ≤ i ∧ i < 0 then some (i + size).toNat
  else none

/-- One batch row of the gather `self.pos_embed[:, pos, :]`. -/
def gatherRow (table : Mat) (row : List ℤ) : Option Mat :=
  optTraverse (fun i => (torchIndex table.length i).map fun j => table.getD j []) row

/-- The gather `self.pos_embed[:, pos, :].squeeze(0)` for `pos : [N, L]`. -/
def gatherPos (table : Mat) (pos : List (List ℤ)) : Option Batch :=
  optTraverse (gatherRow table) pos

/-- Modelled from the spec: the 2D sinusoidal waveform value of
`get_2d_sincos_pos_embed` (file `gigapath/pos_embed.py`, not among the
provided sources). Sinusoid values are transcendental; this fixed rational
surrogate stands for the value at flattened grid position `p`, channel `i`.
No claim depends on the waveform values, only on the generator being a
fixed deterministic function. -/
def sincosVal (G p i : ℕ) : ℚ :=
  ((p : ℚ) / (G : ℚ)) + ((p % G : ℕ) : ℚ) + 1 / ((i : ℚ) + 1)

/-- Modelled from the spec: `get_2d_sincos_pos_embed(embed_dim, grid_size)`
(file `gigapath/pos_embed.py`, not among the provided sources). Per spec
section 4.2 it is a fixed, non-learned 2D sinusoidal generator producing a
`G² × D` table indexed by flattened grid position (row-major). -/
def get_2d_sincos_pos_embed (embedDim G : ℕ) : Mat :=
  (List.range (G * G)).map fun p => (List.range embedDim).map fun i => sincosVal G p i

/-- Configuration record of `TransformerBlock.__init__`
(`dim, num_heads, ff_dim, init_values=1e-5, dropout=0.1, drop_path=0.1,
pre_norm=True`). -/
structure TransformerBlockCfg where
  dim : ℕ
  num_heads : ℕ
  ff_dim : ℕ
  init_values : ℚ
  dropout : ℚ
  drop_path : ℚ
  pre_norm : Bool
deriving DecidableEq

/-- The call site `TransformerBlock(embed_dim, num_heads, ff_dim)` from
`LongNetViT.__init__`: every keyword argument is left at its Python
default (`init_values=1e-5`, `dropout=0.1`, `drop_path=0.1`,
`pre_norm=True`). -/
def mkTransformerBlockDefault (dim num_heads ff_dim : ℕ) : TransformerBlockCfg :=
  ⟨dim, num_heads, ff_dim, 1 / 100000, 1 / 10, 1 / 10, true⟩

/-- Configuration record of `CrossAttention.__init__`
(`embed_dim, num_heads, dropout=0.1`). -/
structure CrossAttentionCfg where
  embed_dim : ℕ
  num_heads : ℕ
  dropout : ℚ
deriving DecidableEq

/-- The call site `CrossAttention(embed_dim, num_heads)` from
`LongNetViT.__init__`: `dropout` is left at its Python default `0.1`. -/
def mkCrossAttentionDefault (embed_dim num_heads : ℕ) : CrossAttentionCfg :=
  ⟨embed_dim, num_heads, 1 / 10⟩

/-- The keyword arguments `LongNetViT.__init__` passes to
`make_longnet_from_name` for each `encoder_wsi` entry. -/
structure EncoderArgs where
  drop_path_rate : ℚ
  dropout : ℚ
deriving DecidableEq

/-- Constructor arguments of `LongNetViT.__init__` (Python defaults:
`in_chans=4096, embed_dim=512, depth=12, slide_ngrids=1000, tile_size=256,
max_wsi_size=262144, dropout=0.25, drop_path_rate=0.1, num_layers=2,
num_heads=8, ff_dim=2048`). -/
structure LongNetViTCfg where
  in_chans : ℕ
  embed_dim : ℕ
  depth : ℕ
  slide_ngrids : ℕ
  tile_size : ℕ
  max_wsi_size : ℕ
  dropout : ℚ
  drop_path_rate : ℚ
  num_layers : ℕ
  num_heads : ℕ
  ff_dim : ℕ
deriving DecidableEq

def LongNetViTCfg.default : LongNetViTCfg :=
  ⟨4096, 512, 12, 1000, 256, 262144, 1 / 4, 1 / 10, 2, 8, 2048⟩

/-- The module state built by `LongNetViT.__init__`. The buffer
`pos_embed` is registered with shape `[1, G², D]` and read back through
`squeeze(0)`; we model it with the leading singleton dimension dropped. -/
structure LongNetViTModules where
  slide_ngrids : ℕ
  num_layers : ℕ
  pos_embed : Mat
  encoder_wsi : List EncoderArgs
  self_attention : List TransformerBlockCfg
  cross_attention : List CrossAttentionCfg
deriving DecidableEq

/-- `LongNetViT.__init__` followed by its weight-setup call: the position
buffer starts as zeros and is immediately overwritten (its only ever
write) with the 2D sin-cos table; the three per-layer module lists are
built with the argument wiring of the source (`encoder_wsi` receives the
configured `dropout`/`drop_path_rate`, the fusion blocks are constructed
with `embed_dim`, `num_heads`, `ff_dim` and Python-default regularization). -/
def LongNetViT.init (cfg : LongNetViTCfg) : LongNetViTModules :=
  { slide_ngrids := cfg.slide_ngrids
    num_layers := cfg.num_layers
    pos_embed := get_2d_sincos_pos_embed cfg.embed_dim cfg.slide_ngrids
    encoder_wsi := List.replicate cfg.num_layers ⟨cfg.drop_path_rate, cfg.dropout⟩
    self_attention := List.replicate cfg.num_layers
      (mkTransformerBlockDefault cfg.embed_dim cfg.num_heads cfg.ff_dim)
    cross_attention := List.replicate cfg.num_layers
      (mkCrossAttentionDefault cfg.embed_dim cfg.num_heads) }

/-- Numeric internals of one `TransformerBlock`: opaque collaborator
functions (`nn.MultiheadAttention` returns the pair
`(attn_output, attn_weights)`), plus the stochastic-depth probability and
the pre/post-norm flag that the source branches on. -/
structure TransformerBlockFns where
  attention : Batch → Option BoolMask → Batch × Batch
  norm1 : Batch → Batch
  norm2 : Batch → Batch
  scale1 : Batch → Batch
  scale2 : Batch → Batch
  ffn : Batch → Batch
  dropPathProb : ℚ
  preNorm : Bool

/-- Numeric internals of one `CrossAttention` block. -/
structure CrossAttentionFns where
  attn : Batch → Batch → Batch → Option Mask → Batch × Batch
  norm : Batch → Batch
  dropoutProb : ℚ

/-- One fusion layer of the orchestrator: `encoder_wsi[i]` (the LongNet
collaborator, a black box taking token embeddings and the context padding
mask), `self_attention[i]`, `cross_attention[i]`. -/
structure LayerFns where
  encoder : Batch → Option Mask → Batch
  selfBlk : TransformerBlockFns
  crossBlk : CrossAttentionFns

/-- All numeric internals of a constructed model, per layer index, plus
the final `.to(torch.bfloat16)` downcast as an opaque rounding map. -/
structure ModelFns where
  layers : ℕ → LayerFns
  bf16 : ℚ → ℚ

/-- Streams of Bernoulli draws consumed by the explicit stochastic
wrappers: per layer and batch sample for the two `DropPath`s, per layer,
sample, position and channel for the `CrossAttention` dropout. -/
structure Rand where
  dp1 : ℕ → ℕ → Bool
  dp2 : ℕ → ℕ → Bool
  cdrop : ℕ → ℕ → ℕ → ℕ → Bool

/-- timm `DropPath` application: identity in eval mode; in training mode
each batch sample is kept (and rescaled by `1/(1-p)`) or zeroed according
to its Bernoulli draw. -/
def dropPathApply (training : Bool) (keep : ℕ → Bool) (p : ℚ) (x : Batch) : Batch :=
  if training then
    mapWithIdx (fun n m => if keep n then matSmul (1 / (1 - p)) m else matSmul 0 m) x
  else x

/-- `DropPath(drop_path) if drop_path > 0 else nn.Identity()` from
`TransformerBlock.__init__`. -/
def dropPathMod (p : ℚ) (training : Bool) (keep : ℕ → Bool) (x : Batch) : Batch :=
  if 0 < p then dropPathApply training keep p x else x

/-- `nn.Dropout` application: identity in eval mode; in training mode each
element is kept (and rescaled by `1/(1-p)`) or zeroed per its draw. -/
def dropoutApply (training : Bool) (keep : ℕ → ℕ → ℕ → Bool) (p : ℚ) (x : Batch) : Batch :=
  if training then
    mapWithIdx (fun n m =>
      mapWithIdx (fun l v =>
        mapWithIdx (fun c q => if keep n l c then q / (1 - p) else 0) v) m) x
  else x

/-- Line 72 of the source: `attention_mask = (attention_mask == 0) if
attention_mask is not None else None`. The boolean result is handed to
`nn.MultiheadAttention` as `key_padding_mask`, whose contract is
"positions with the value True will be ignored". -/
def tbMaskArg (m : Option Mask) : Option BoolMask :=
  m.map fun mm => mm.map fun row => row.map fun v => decide (v = 0)

/-- Whether `key_padding_mask` excludes key position `j` of batch row `n`
from attention (`none` excludes nothing; out-of-tensor positions do not
exist and are reported as not excluded). -/
def excludedAt (bm : Option BoolMask) (n j : ℕ) : Bool :=
  match bm with
  | none => false
  | some mm => (mm.getD n []).getD j false

/-- `TransformerBlock.forward`: mask inversion, then the pre-norm or
post-norm two-sublayer body exactly as in the source. -/
def transformerBlockForward (f : TransformerBlockFns) (training : Bool)
    (keep1 keep2 : ℕ → Bool) (x : Batch) (attention_mask : Option Mask) : Batch :=
  let bm := tbMaskArg attention_mask
  if f.preNorm then
    let a := (f.attention (f.norm1 x) bm).1
    let x1 := batchAdd x (dropPathMod f.dropPathProb training keep1 (f.scale1 a))
    let fo := f.ffn (f.norm2 x1)
    batchAdd x1 (dropPathMod f.dropPathProb training keep2 (f.scale2 fo))
  else
    let a := (f.attention x bm).1
    let x1 := batchAdd x (dropPathMod f.dropPathProb training keep1 (f.scale1 (f.norm1 a)))
    let fo := f.ffn x1
    batchAdd x1 (dropPathMod f.dropPathProb training keep2 (f.scale2 (f.norm2 fo)))

/-- `CrossAttention.forward` with `return_weights=False`:
`norm(query + dropout(attn_output))`, the `key_padding_mask` passed through
to the attention primitive untouched. -/
def crossAttentionForward (f : CrossAttentionFns) (training : Bool)
    (keep : ℕ → ℕ → ℕ → Bool) (query key value : Batch) (kpm : Option Mask) : Batch :=
  f.norm (batchAdd query
    (dropoutApply training keep f.dropoutProb (f.attn query key value kpm).1))

/-- `CrossAttention.forward` with `return_weights=True`: the same
computation, additionally returning the attention weights. -/
def crossAttentionForwardW (f : CrossAttentionFns) (training : Bool)
    (keep : ℕ → ℕ → ℕ → Bool) (query key value : Batch) (kpm : Option Mask) :
    Batch × Batch :=
  (f.norm (batchAdd query
    (dropoutApply training keep f.dropoutProb (f.attn query key value kpm).1)),
   (f.attn query key value kpm).2)

/-- Lines 245-248 of the source: when a `self_attention_mask` is supplied,
prepend `torch.ones((N, Q))` (one all-valid entry per query position) to
it along the last dimension; when it is `None`, build nothing. -/
def buildSelfMask (querys : Batch) (m : Option Mask) : Option Mask :=
  m.map fun mm => mm.map fun row => List.replicate (dim1 querys) 1 ++ row

/-- `LongNetViT.forward`, translated statement by statement from the
source: the query length and self-attention mask are computed up front,
the position indices are gathered from the position table (an operation
that raises when an index is out of range, hence `Option`) and added to
the tile embeddings, then `num_layers` iterations of context encoding,
self fusion over `cat(querys, instructs)`, query extraction `[:, :Q, :]`
and cross fusion run, and the final query is downcast. -/
def forward (m : LongNetViTModules) (fns : ModelFns) (training : Bool) (r : Rand)
    (querys contexts instructs : Batch) (coords : List (List (ℚ × ℚ)))
    (patchSize : ℚ) (self_attention_mask key_padding_mask : Option Mask) :
    Option Batch :=
  let query_length := dim1 querys
  let sam := buildSelfMask querys self_attention_mask
  let pos := coords_to_pos m.slide_ngrids patchSize coords
  (gatherPos m.pos_embed pos).map fun pe =>
    let contexts0 := batchAdd contexts pe
    let res := (List.range m.num_layers).foldl
      (fun (st : Batch × Batch) i =>
        let contexts1 := (fns.layers i).encoder st.2 key_padding_mask
        let combined := batchCat st.1 instructs
        let so := transformerBlockForward (fns.layers i).selfBlk training
          (r.dp1 i) (r.dp2 i) combined sam
        let q1 := batchTake query_length so
        let q2 := crossAttentionForward (fns.layers i).crossBlk training
          (r.cdrop i) q1 contexts1 contexts1 key_padding_mask
        (q2, contexts1))
      (querys, contexts0)
    batchMap fns.bf16 res.1

/-- The orchestrator algorithm as written in spec section 4.6, for the
refinement comparison with `forward`: index, position-table add, full
self-fusion mask `concat(all_valid(Q), instruction_mask)`, then per layer
context encoding, self fusion of `concat(query, instructions)`, query
slice `[:, :Q]`, cross fusion, and a final reduced-precision cast. -/
def forwardSpec (m : LongNetViTModules) (fns : ModelFns) (training : Bool) (r : Rand)
    (query tiles instructions : Batch) (coords : List (List (ℚ × ℚ)))
    (tileSize : ℚ) (instruction_mask context_padding_mask : Option Mask) :
    Option Batch :=
  let q := dim1 query
  let index := coords_to_pos m.slide_ngrids tileSize coords
  let mask_full := instruction_mask.map fun mm =>
    mm.map fun row => List.replicate q 1 ++ row
  (gatherPos m.pos_embed index).map fun rows =>
    let context0 := batchAdd tiles rows
    let final := (List.range m.num_layers).foldl
      (fun (st : Batch × Batch) layer =>
        let context := (fns.layers layer).encoder st.2 context_padding_mask
        let combined := batchCat st.1 instructions
        let fused := transformerBlockForward (fns.layers layer).selfBlk training
          (r.dp1 layer) (r.dp2 layer) combined mask_full
        let q1 := batchTake q fused
        (crossAttentionForward (fns.layers layer).crossBlk training
          (r.cdrop layer) q1 context context context_padding_mask, context))
      (query, context0)
    batchMap fns.bf16 final.1

/-- The state-passing reading of `LongNetViT.forward`: the method body
contains no assignment to any attribute of `self`, so its translation
returns the module state it was given, unchanged, next to the output. -/
def forwardSt (m : LongNetViTModules) (fns : ModelFns) (training : Bool) (r : Rand)
    (querys contexts instructs : Batch) (coords : List (List (ℚ × ℚ)))
    (patchSize : ℚ) (self_attention_mask key_padding_mask : Option Mask) :
    Option Batch × LongNetViTModules :=
  (forward m fns training r querys contexts instructs coords patchSize
    self_attention_mask key_padding_mask, m)

/-- Corner coordinates of a 2×2 grid with tile size 256 (concrete
instance of spec Scenario A). -/
def cornerCoords2 : List (List (ℚ × ℚ)) :=
  [[((0 : ℚ), (0 : ℚ)), ((0 : ℚ), (256 : ℚ)), ((256 : ℚ), (0 : ℚ)),
    ((256 : ℚ), (256 : ℚ))]]

/-- A small constructed model: grid 2×2, embedding width 2, one fusion
layer; all other options at the source defaults. -/
def smallCfg : LongNetViTCfg := ⟨4096, 2, 1, 2, 256, 1024, 1 / 4, 1 / 10, 1, 8, 2048⟩

def smallM : LongNetViTModules := LongNetViT.init smallCfg

/-- Concrete collaborator internals for witnesses: every opaque block is
the identity-shaped function. -/
def idTBFns : TransformerBlockFns :=
  { attention := fun x _ => (x, x), norm1 := id, norm2 := id, scale1 := id,
    scale2 := id, ffn := id, dropPathProb := 1 / 10, preNorm := true }

def idCAFns : CrossAttentionFns :=
  { attn := fun q _ _ _ => (q, q), norm := id, dropoutProb := 1 / 10 }

def idLayerFns : LayerFns :=
  { encoder := fun x _ => x, selfBlk := idTBFns, crossBlk := idCAFns }

def idModelFns : ModelFns := { layers := fun _ => idLayerFns, bf16 := id }

/-- A concrete stream of Bernoulli draws. -/
def constRand : Rand :=
  { dp1 := fun _ _ => true, dp2 := fun _ _ => true, cdrop := fun _ _ _ _ => true }

/-- Eval-mode (non-training) semantics of `TransformerBlock.forward`:
the two stochastic-depth wrappers act as the identity. -/
def transformerBlockEval (f : TransformerBlockFns) (x : Batch)
    (attention_mask : Option Mask) : Batch :=
  let bm := tbMaskArg attention_mask
  if f.preNorm then
    let a := (f.attention (f.norm1 x) bm).1
    let x1 := batchAdd x (f.scale1 a)
    batchAdd x1 (f.scale2 (f.ffn (f.norm2 x1)))
  else
    let a := (f.attention x bm).1
    let x1 := batchAdd x (f.scale1 (f.norm1 a))
    batchAdd x1 (f.scale2 (f.norm2 (f.ffn x1)))

/-- Eval-mode (non-training) semantics of `CrossAttention.forward`: the
dropout acts as the identity. -/
def crossAttentionEval (f : CrossAttentionFns) (query key value : Batch)
    (kpm : Option Mask) : Batch :=
  f.norm (batchAdd query (f.attn query key value kpm).1)

/-! Helper lemmas. -/

theorem mem_zipWith_imp {α β γ : Type} {f : α → β → γ} {P : γ → Prop} :
    ∀ {x : List α} {y : List β}, (∀ a ∈ x, ∀ b ∈ y, P (f a b)) →
      ∀ c ∈ List.zipWith f x y, P c := by
  intro x
  induction x with
  | nil => intro y _ c hc; simp at hc
  | cons a t ih =>
    intro y h c hc
    cases y with
    | nil => simp at hc
    | cons b s =>
      rw [List.zipWith_cons_cons, List.mem_cons] at hc
      rcases hc with hc | hc
      · subst hc; exact h a (by simp) b (by simp)
      · exact ih (fun a' ha' b' hb' => h a' (by simp [ha']) b' (by simp [hb'])) c hc

theorem floor_pred_mul_div (G : ℕ) (t : ℚ) (ht : 0 < t) :
    ⌊((G : ℚ) - 1) * t / t⌋ = (G : ℤ) - 1 := by
  rw [mul_div_assoc, div_self (ne_of_gt ht), mul_one]
  have h : ((G : ℚ) - 1) = (((G : ℤ) - 1 : ℤ) : ℚ) := by push_cast; ring
  rw [h, Int.floor_intCast]

theorem getD_map_eq {α β : Type} (f : α → β) (d : α) :
    ∀ (l : List α) (n : ℕ), (l.map f).getD n (f d) = f (l.getD n d) := by
  intro l
  induction l with
  | nil => intro n; simp
  | cons a t ih =>
    intro n
    cases n with
    | zero => simp
    | succ k => simp only [List.map_cons, List.getD_cons_succ]; exact ih k

theorem getD_append_left {α : Type} (d : α) :
    ∀ (l l' : List α) (n : ℕ), n < l.length → (l ++ l').getD n d = l.getD n d := by
  intro l
  induction l with
  | nil => intro l' n h; simp at h
  | cons a t ih =>
    intro l' n h
    cases n with
    | zero => simp
    | succ k =>
      simp only [List.cons_append, List.getD_cons_succ]
      exact ih l' k (by simpa using h)

theorem getD_replicate_lt {α : Type} (a d : α) :
    ∀ (n k : ℕ), k < n → (List.replicate n a).getD k d = a := by
  intro n
  induction n with
  | zero => intro k h; omega
  | succ m ih =>
    intro k h
    cases k with
    | zero => simp [List.replicate_succ]
    | succ j =>
      simp only [List.replicate_succ, List.getD_cons_succ]
      exact ih j (by omega)

theorem getD_of_le {α : Type} (d : α) :
    ∀ (l : List α) (n : ℕ), l.length ≤ n → l.getD n d = d := by
  intro l
  induction l with
  | nil => intro n _; simp
  | cons a t ih =>
    intro n h
    cases n with
    | zero => simp at h
    | succ k => simpa using ih k (by simpa using h)

/-- The `key_padding_mask` position semantics of the inverted mask: a key
position is excluded from attention exactly when the caller-supplied mask
entry there equals zero (positions outside the tensor read the neutral
defaults). -/
theorem excludedAt_tbMaskArg_some (mm : Mask) (n j : ℕ) :
    excludedAt (tbMaskArg (some mm)) n j =
      decide ((mm.getD n []).getD j 1 = 0) := by
  unfold excludedAt tbMaskArg
  simp only [Option.map_some']
  have h1 : ((mm.map fun row => row.map fun v => decide (v = 0)).getD n []) =
      ((mm.getD n []).map fun v => decide (v = 0)) := by
    simpa using getD_map_eq (fun row : MaskRow => row.map fun v => decide (v = 0)) [] mm n
  rw [h1]
  simpa using getD_map_eq (fun v : ℚ => decide (v = 0)) 1 (mm.getD n []) j

/-! Claim theorems. -/

/-- C1: for every coordinate tensor whose quantized cells lie within
`[0, G)` on both axes, `coords_to_pos` returns `row * G + col` for every
position, an integer in `[0, G²)`; it is a pure function of
`(coords, patch_size)` (and the configured `G`) by construction. For the
four grid-corner coordinates it returns exactly the four indices
`0`, `G-1`, `(G-1)·G`, `G²-1`, pairwise distinct (for a grid with `G ≥ 2`
and a positive tile size). -/
theorem C1_position_indexer (G : ℕ) (p t : ℚ) (coords : List (List (ℚ × ℚ)))
    (hrange : ∀ row ∈ coords, ∀ c ∈ row,
      (0 ≤ ⌊c.1 / p⌋ ∧ ⌊c.1 / p⌋ < (G : ℤ)) ∧ (0 ≤ ⌊c.2 / p⌋ ∧ ⌊c.2 / p⌋ < (G : ℤ)))
    (hG : 2 ≤ G) (ht : 0 < t) :
    (∀ row ∈ coords, ∀ c ∈ row,
        coordsToPosCell G p c = ⌊c.1 / p⌋ * G + ⌊c.2 / p⌋ ∧
        0 ≤ coordsToPosCell G p c ∧ coordsToPosCell G p c < (G : ℤ) ^ 2) ∧
    (∀ prow ∈ coords_to_pos G p coords, ∀ i ∈ prow, 0 ≤ i ∧ i < (G : ℤ) ^ 2) ∧
    (coordsToPosCell G t ((0 : ℚ), (0 : ℚ)) = 0 ∧
      coordsToPosCell G t ((0 : ℚ), ((G : ℚ) - 1) * t) = (G : ℤ) - 1 ∧
      coordsToPosCell G t (((G : ℚ) - 1) * t, (0 : ℚ)) = ((G : ℤ) - 1) * G ∧
      coordsToPosCell G t (((G : ℚ) - 1) * t, ((G : ℚ) - 1) * t) = (G : ℤ) ^ 2 - 1) ∧
    ((0 : ℤ) ≠ (G : ℤ) - 1 ∧ (0 : ℤ) ≠ ((G : ℤ) - 1) * G ∧ (0 : ℤ) ≠ (G : ℤ) ^ 2 - 1 ∧
      (G : ℤ) - 1 ≠ ((G : ℤ) - 1) * G ∧ (G : ℤ) - 1 ≠ (G : ℤ) ^ 2 - 1 ∧
      ((G : ℤ) - 1) * G ≠ (G : ℤ) ^ 2 - 1) := by
  have hg : (2 : ℤ) ≤ (G : ℤ) := by exact_mod_cast hG
  have hcell : ∀ row ∈ coords, ∀ c ∈ row,
      coordsToPosCell G p c = ⌊c.1 / p⌋ * G + ⌊c.2 / p⌋ ∧
      0 ≤ coordsToPosCell G p c ∧ coordsToPosCell G p c < (G : ℤ) ^ 2 := by
    intro row hrow c hc
    rcases hrange row hrow c hc with ⟨⟨hr0, hrG⟩, hc0, hcG⟩
    refine ⟨rfl, ?_, ?_⟩
    · unfold coordsToPosCell
      have : 0 ≤ ⌊c.1 / p⌋ * (G : ℤ) := by positivity
      omega
    · unfold coordsToPosCell
      nlinarith [hr0, hrG, hc0, hcG]
  refine ⟨hcell, ?_, ?_, ?_⟩
  · intro prow hprow i hi
    unfold coords_to_pos at hprow
    rcases List.mem_map.mp hprow with ⟨row, hrow, rfl⟩
    rcases List.mem_map.mp hi with ⟨c, hc, rfl⟩
    exact (hcell row hrow c hc).2
  · have hf := floor_pred_mul_div G t ht
    have h0 : ⌊(0 : ℚ) / t⌋ = 0 := by simp
    refine ⟨by simp [coordsToPosCell, h0], by simp [coordsToPosCell, h0, hf],
      by simp [coordsToPosCell, h0, hf], ?_⟩
    simp only [coordsToPosCell, hf]
    ring
  · refine ⟨by nlinarith, by nlinarith, by nlinarith, by nlinarith, by nlinarith,
      by nlinarith⟩

theorem cornerCoords2_range : ∀ row ∈ cornerCoords2, ∀ c ∈ row,
    (0 ≤ ⌊c.1 / (256 : ℚ)⌋ ∧ ⌊c.1 / (256 : ℚ)⌋ < (2 : ℤ)) ∧
    (0 ≤ ⌊c.2 / (256 : ℚ)⌋ ∧ ⌊c.2 / (256 : ℚ)⌋ < (2 : ℤ)) := by
  intro row hrow c hc
  have hrow' : row = [((0 : ℚ), (0 : ℚ)), ((0 : ℚ), (256 : ℚ)),
      ((256 : ℚ), (0 : ℚ)), ((256 : ℚ), (256 : ℚ))] := by
    simpa [cornerCoords2] using hrow
  subst hrow'
  have hc' : c = ((0 : ℚ), (0 : ℚ)) ∨ c = ((0 : ℚ), (256 : ℚ)) ∨
      c = ((256 : ℚ), (0 : ℚ)) ∨ c = ((256 : ℚ), (256 : ℚ)) := by simpa using hc
  rcases hc' with rfl | rfl | rfl | rfl <;> norm_num

theorem C1_position_indexer_witness :
    ((∀ row ∈ cornerCoords2, ∀ c ∈ row,
        (0 ≤ ⌊c.1 / (256 : ℚ)⌋ ∧ ⌊c.1 / (256 : ℚ)⌋ < (2 : ℤ)) ∧
        (0 ≤ ⌊c.2 / (256 : ℚ)⌋ ∧ ⌊c.2 / (256 : ℚ)⌋ < (2 : ℤ))) ∧
      2 ≤ 2 ∧ (0 : ℚ) < 256) ∧
    ((∀ row ∈ cornerCoords2, ∀ c ∈ row,
        coordsToPosCell 2 256 c = ⌊c.1 / (256 : ℚ)⌋ * 2 + ⌊c.2 / (256 : ℚ)⌋ ∧
        0 ≤ coordsToPosCell 2 256 c ∧ coordsToPosCell 2 256 c < (2 : ℤ) ^ 2) ∧
      (∀ prow ∈ coords_to_pos 2 256 cornerCoords2, ∀ i ∈ prow,
        0 ≤ i ∧ i < (2 : ℤ) ^ 2) ∧
      (coordsToPosCell 2 256 ((0 : ℚ), (0 : ℚ)) = 0 ∧
        coordsToPosCell 2 256 ((0 : ℚ), ((2 : ℚ) - 1) * 256) = (2 : ℤ) - 1 ∧
        coordsToPosCell 2 256 (((2 : ℚ) - 1) * 256, (0 : ℚ)) = ((2 : ℤ) - 1) * 2 ∧
        coordsToPosCell 2 256 (((2 : ℚ) - 1) * 256, ((2 : ℚ) - 1) * 256) =
          (2 : ℤ) ^ 2 - 1) ∧
      ((0 : ℤ) ≠ (2 : ℤ) - 1 ∧ (0 : ℤ) ≠ ((2 : ℤ) - 1) * 2 ∧
        (0 : ℤ) ≠ (2 : ℤ) ^ 2 - 1 ∧ (2 : ℤ) - 1 ≠ ((2 : ℤ) - 1) * 2 ∧
        (2 : ℤ) - 1 ≠ (2 : ℤ) ^ 2 - 1 ∧ ((2 : ℤ) - 1) * 2 ≠ (2 : ℤ) ^ 2 - 1)) :=
  ⟨⟨cornerCoords2_range, by decide, by norm_num⟩,
    C1_position_indexer 2 256 256 cornerCoords2 cornerCoords2_range
      (by decide) (by norm_num)⟩

/-- C4 counterexample: the claim says a position is excluded from
attention exactly when the caller's mask entry is non-zero. At the
concrete mask `[[5]]` the entry is non-zero yet the position is NOT
excluded, and at `[[0]]` the entry is zero yet the position IS excluded:
the source's convention (`attention_mask == 0` becomes the True-means-
ignore `key_padding_mask`) is the exact opposite of the claimed one. -/
theorem C4_mask_convention_counterexample :
    excludedAt (tbMaskArg (some [[(5 : ℚ)]])) 0 0 = false ∧ (5 : ℚ) ≠ 0 ∧
    excludedAt (tbMaskArg (some [[(0 : ℚ)]])) 0 0 = true := by decide

/-- C4 (amended): the caller-facing attention mask of the Self-Fusion
Block uses the convention "non-zero = attend, 0 = padding"; the block
inverts it to the boolean True-means-exclude convention of
`nn.MultiheadAttention`, so a key position is excluded from attention
exactly when the caller's mask entry is zero. -/
theorem C4_mask_convention_amended (mm : Mask) (n j : ℕ) :
    excludedAt (tbMaskArg (some mm)) n j = true ↔ (mm.getD n []).getD j 1 = 0 := by
  rw [excludedAt_tbMaskArg_some]
  simp

/-- C10: when the caller omits the instruction mask, `forward` builds no
combined mask at all: `buildSelfMask` yields `None` (not an all-valid
mask of length Q+I), the Self-Fusion Block's inversion keeps `None`, and
under the `None` key-padding mask no position of the concatenated
query-instruction sequence is excluded from self-attention. -/
theorem C10_omitted_mask_is_none (querys : Batch) (n j : ℕ) :
    buildSelfMask querys none = none ∧
    tbMaskArg (buildSelfMask querys none) = none ∧
    excludedAt (tbMaskArg (buildSelfMask querys none)) n j = false := by
  simp [buildSelfMask, tbMaskArg, excludedAt]

/-- C3: when an instruction mask with rows of length `I` is supplied to a
forward call whose query tensor has `Q` positions, the mask handed to the
Self-Fusion Block exists, every row has length exactly `Q + I`, its first
`Q` entries (the query positions, placed first) are the all-valid value
`1`, and after the block's inversion none of the first `Q` key positions
is ever excluded, regardless of the supplied instruction mask. -/
theorem C3_self_fusion_mask (querys : Batch) (N Q D I : ℕ) (mm : Mask)
    (hq : batchShape querys N Q D) (hN : 0 < N)
    (hI : ∀ row ∈ mm, row.length = I) :
    buildSelfMask querys (some mm) ≠ none ∧
    (∀ row ∈ (buildSelfMask querys (some mm)).getD [], row.length = Q + I) ∧
    (∀ row ∈ (buildSelfMask querys (some mm)).getD [], ∀ j < Q, row.getD j 0 = 1) ∧
    (∀ n j, j < Q →
      excludedAt (tbMaskArg (buildSelfMask querys (some mm))) n j = false) := by
  have hdim : dim1 querys = Q := by
    rcases hq with ⟨hlen, hmem⟩
    cases querys with
    | nil => simp at hlen; omega
    | cons h t => exact (hmem h (by simp)).1
  have hbuild : buildSelfMask querys (some mm) =
      some (mm.map fun row => List.replicate Q 1 ++ row) := by
    simp [buildSelfMask, hdim]
  rw [hbuild]
  refine ⟨by simp, ?_, ?_, ?_⟩
  · intro row hrow
    rcases List.mem_map.mp (by simpa using hrow) with ⟨r, hr, rfl⟩
    simp [hI r hr]
  · intro row hrow j hj
    rcases List.mem_map.mp (by simpa using hrow) with ⟨r, hr, rfl⟩
    rw [getD_append_left _ _ _ _ (by simpa using hj), getD_replicate_lt _ _ _ _ hj]
  · intro n j hj
    rw [excludedAt_tbMaskArg_some]
    rcases Nat.lt_or_ge n (mm.map fun row => List.replicate Q 1 ++ row).length
      with hn | hn
    · have hmem : ((mm.map fun row => List.replicate Q 1 ++ row).getD n []) ∈
          (mm.map fun row => List.replicate Q 1 ++ row) := by
        rw [List.getD_eq_getElem _ _ hn]
        exact List.getElem_mem hn
      rcases List.mem_map.mp hmem with ⟨r, _, hrow⟩
      rw [← hrow, getD_append_left _ _ _ _ (by simpa using hj),
        getD_replicate_lt _ _ _ _ hj]
      simp
    · rw [getD_of_le _ _ _ hn]
      simp

theorem C3_self_fusion_mask_witness :
    (batchShape [[[(0 : ℚ)]]] 1 1 1 ∧ 0 < 1 ∧
      (∀ row ∈ [[(0 : ℚ)]], row.length = 1)) ∧
    (buildSelfMask [[[(0 : ℚ)]]] (some [[(0 : ℚ)]]) ≠ none ∧
      (∀ row ∈ (buildSelfMask [[[(0 : ℚ)]]] (some [[(0 : ℚ)]])).getD [],
        row.length = 1 + 1) ∧
      (∀ row ∈ (buildSelfMask [[[(0 : ℚ)]]] (some [[(0 : ℚ)]])).getD [],
        ∀ j < 1, row.getD j 0 = 1) ∧
      (∀ n j, j < 1 →
        excludedAt (tbMaskArg (buildSelfMask [[[(0 : ℚ)]]] (some [[(0 : ℚ)]]))) n j =
          false)) :=
  ⟨⟨by decide, by decide, by decide⟩,
    C3_self_fusion_mask [[[(0 : ℚ)]]] 1 1 1 1 [[(0 : ℚ)]]
      (by decide) (by decide) (by decide)⟩

theorem optTraverse_eq_none_iff {α β : Type} (f : α → Option β) :
    ∀ l : List α, optTraverse f l = none ↔ ∃ a ∈ l, f a = none := by
  intro l
  induction l with
  | nil => simp [optTraverse]
  | cons a t ih =>
    simp only [optTraverse]
    cases hfa : f a with
    | none =>
      simp only [Option.none_bind]
      exact ⟨fun _ => ⟨a, by simp, hfa⟩, fun _ => trivial⟩
    | some b =>
      simp only [Option.some_bind]
      cases ht : optTraverse f t with
      | none =>
        simp only [Option.none_bind]
        rcases ih.mp ht with ⟨x, hx, hfx⟩
        exact ⟨fun _ => ⟨x, List.mem_cons_of_mem a hx, hfx⟩, fun _ => trivial⟩
      | some r =>
        simp only [Option.some_bind]
        constructor
        · intro h; simp at h
        · rintro ⟨x, hx, hfx⟩
          rcases List.mem_cons.mp hx with rfl | hx'
          · rw [hfa] at hfx; simp at hfx
          · have hnone := ih.mpr ⟨x, hx', hfx⟩
            rw [hnone] at ht; simp at ht

theorem optTraverse_eq_some {α β : Type} (f : α → Option β) :
    ∀ {l : List α} {r : List β}, optTraverse f l = some r →
      r.length = l.length ∧ ∀ b ∈ r, ∃ a ∈ l, f a = some b := by
  intro l
  induction l with
  | nil =>
    intro r h
    simp only [optTraverse, Option.some.injEq] at h
    subst h; simp
  | cons a t ih =>
    intro r h
    simp only [optTraverse] at h
    cases hfa : f a with
    | none => rw [hfa] at h; simp at h
    | some b =>
      rw [hfa] at h
      simp only [Option.some_bind] at h
      cases ht : optTraverse f t with
      | none => rw [ht] at h; simp at h
      | some r' =>
        rw [ht] at h
        simp only [Option.some_bind, Option.some.injEq] at h
        subst h
        rcases ih ht with ⟨hl, hmem⟩
        refine ⟨by simp [hl], ?_⟩
        intro x hx
        rcases List.mem_cons.mp hx with rfl | hx'
        · exact ⟨a, by simp, hfa⟩
        · rcases hmem x hx' with ⟨y, hy, hfy⟩
          exact ⟨y, by simp [hy], hfy⟩

theorem torchIndex_eq_none_iff (size : ℕ) (i : ℤ) :
    torchIndex size i = none ↔ i < -(size : ℤ) ∨ (size : ℤ) ≤ i := by
  unfold torchIndex
  split_ifs with h1 h2 <;> simp <;> omega

theorem torchIndex_some_lt (size : ℕ) (i : ℤ) (j : ℕ)
    (h : torchIndex size i = some j) : j < size := by
  unfold torchIndex at h
  split_ifs at h with h1 h2
  · simp only [Option.some.injEq] at h; omega
  · simp only [Option.some.injEq] at h; omega

theorem gatherRow_eq_none_iff (table : Mat) (row : List ℤ) :
    gatherRow table row = none ↔ ∃ i ∈ row, torchIndex table.length i = none := by
  unfold gatherRow
  rw [optTraverse_eq_none_iff]
  simp

theorem gatherPos_eq_none_iff (table : Mat) (pos : List (List ℤ)) :
    gatherPos table pos = none ↔
      ∃ row ∈ pos, ∃ i ∈ row, torchIndex table.length i = none := by
  unfold gatherPos
  rw [optTraverse_eq_none_iff]
  simp [gatherRow_eq_none_iff]

/-- C5 counterexample: the claim says every coordinate whose quantized
cell lies outside `[0, G)` on some axis makes the forward pass fail at
the position-table gather, never wrapping to a different valid grid
cell. Concrete refutation with the 2×2-grid model: the coordinate
`(0, 512)` quantizes to cell `(0, 2)`, whose column equals `G = 2` and is
out of range, yet `forward` succeeds (returns `some`), because the
flattened index `0 * 2 + 2 = 2` is in `[0, G²)` — it is exactly the index
of the different, valid grid cell `(1, 0)` reached by coordinate
`(256, 0)`. -/
theorem C5_out_of_range_counterexample :
    (⌊(512 : ℚ) / 256⌋ = 2 ∧ ¬(⌊(512 : ℚ) / 256⌋ < (2 : ℤ))) ∧
    coords_to_pos 2 256 [[((0 : ℚ), (512 : ℚ))]] =
      coords_to_pos 2 256 [[((256 : ℚ), (0 : ℚ))]] ∧
    forward smallM idModelFns false constRand [[[(0 : ℚ), 0]]] [[[(0 : ℚ), 0]]]
      [[[(0 : ℚ), 0]]] [[((0 : ℚ), (512 : ℚ))]] 256 none none ≠ none := by
  have hfa : ⌊(512 : ℚ) / 256⌋ = 2 := by norm_num
  have hf0 : ⌊(0 : ℚ) / 256⌋ = 0 := by norm_num
  have hf1 : ⌊(256 : ℚ) / 256⌋ = 1 := by norm_num
  have hpos : coords_to_pos 2 256 [[((0 : ℚ), (512 : ℚ))]] = [[(2 : ℤ)]] := by
    simp [coords_to_pos, coordsToPosCell, hfa, hf0]
  refine ⟨⟨hfa, by rw [hfa]; omega⟩, ?_, ?_⟩
  · rw [hpos]
    simp [coords_to_pos, coordsToPosCell, hf0, hf1]
  · simp only [forward]
    rw [show smallM.slide_ngrids = 2 from rfl, hpos]
    decide

/-- C5 (amended): the gather fails out-of-range only when some flattened
index `⌊x/p⌋·G + ⌊y/p⌋` leaves PyTorch's valid index range; in particular
a quantized row cell at or past `G` together with a non-negative column
cell makes the flattened index reach `G²`, so the forward pass fails with
an out-of-range lookup at the position-table gather. (A column cell equal
to `G` does not fail: it silently aliases the next row's first cell — see
the counterexample.) -/
theorem C5_out_of_range_amended (m : LongNetViTModules) (fns : ModelFns)
    (training : Bool) (r : Rand) (querys contexts instructs : Batch)
    (coords : List (List (ℚ × ℚ))) (p : ℚ) (sam kpm : Option Mask)
    (htab : m.pos_embed.length = m.slide_ngrids * m.slide_ngrids)
    (hbad : ∃ row ∈ coords, ∃ c ∈ row,
      (m.slide_ngrids : ℤ) ≤ ⌊c.1 / p⌋ ∧ 0 ≤ ⌊c.2 / p⌋) :
    gatherPos m.pos_embed (coords_to_pos m.slide_ngrids p coords) = none ∧
    forward m fns training r querys contexts instructs coords p sam kpm = none := by
  have hg : gatherPos m.pos_embed (coords_to_pos m.slide_ngrids p coords) = none := by
    rw [gatherPos_eq_none_iff]
    rcases hbad with ⟨row, hrow, c, hc, hr, hcol⟩
    refine ⟨row.map (coordsToPosCell m.slide_ngrids p),
      List.mem_map_of_mem _ hrow,
      coordsToPosCell m.slide_ngrids p c, List.mem_map_of_mem _ hc, ?_⟩
    rw [torchIndex_eq_none_iff, htab]
    right
    unfold coordsToPosCell
    have hG0 : (0 : ℤ) ≤ (m.slide_ngrids : ℤ) := Int.natCast_nonneg _
    push_cast
    nlinarith [hr, hcol, hG0]
  exact ⟨hg, by simp [forward, hg]⟩

theorem C5_out_of_range_amended_witness :
    (smallM.pos_embed.length = smallM.slide_ngrids * smallM.slide_ngrids ∧
      (∃ row ∈ [[((512 : ℚ), (0 : ℚ))]], ∃ c ∈ row,
        (smallM.slide_ngrids : ℤ) ≤ ⌊c.1 / (256 : ℚ)⌋ ∧ 0 ≤ ⌊c.2 / (256 : ℚ)⌋)) ∧
    (gatherPos smallM.pos_embed
        (coords_to_pos smallM.slide_ngrids 256 [[((512 : ℚ), (0 : ℚ))]]) = none ∧
      forward smallM idModelFns false constRand [[[(0 : ℚ), 0]]] [[[(0 : ℚ), 0]]]
        [[[(0 : ℚ), 0]]] [[((512 : ℚ), (0 : ℚ))]] 256 none none = none) :=
  ⟨⟨by decide, ⟨[((512 : ℚ), (0 : ℚ))], by simp, ((512 : ℚ), (0 : ℚ)), by simp,
      by norm_num [smallM, LongNetViT.init, smallCfg]⟩⟩,
    C5_out_of_range_amended smallM idModelFns false constRand [[[(0 : ℚ), 0]]]
      [[[(0 : ℚ), 0]]] [[[(0 : ℚ), 0]]] [[((512 : ℚ), (0 : ℚ))]] 256 none none
      (by decide)
      ⟨[((512 : ℚ), (0 : ℚ))], by simp, ((512 : ℚ), (0 : ℚ)), by simp,
        by norm_num [smallM, LongNetViT.init, smallCfg]⟩⟩

/-- C6 counterexample: the claim says every self- and cross-fusion block
uses the configured `dropout` and `drop_path_rate`. At the source's own
default configuration (`dropout=0.25`), the constructed self-fusion
blocks carry dropout `0.1` (the `TransformerBlock` default, since the
call site passes only `embed_dim, num_heads, ff_dim`) and the cross-
fusion blocks carry dropout `0.1` (the `CrossAttention` default), both
different from the configured `0.25`. -/
theorem C6_regularization_counterexample :
    LongNetViTCfg.default.dropout = 1 / 4 ∧
    (∃ b ∈ (LongNetViT.init LongNetViTCfg.default).self_attention,
      b.dropout ≠ LongNetViTCfg.default.dropout) ∧
    (∃ b ∈ (LongNetViT.init LongNetViTCfg.default).cross_attention,
      b.dropout ≠ LongNetViTCfg.default.dropout) := by
  refine ⟨rfl, ?_, ?_⟩
  · refine ⟨mkTransformerBlockDefault 512 8 2048, ?_, by norm_num [mkTransformerBlockDefault, LongNetViTCfg.default]⟩
    simp [LongNetViT.init, LongNetViTCfg.default, List.mem_replicate]
  · refine ⟨mkCrossAttentionDefault 512 8, ?_, by norm_num [mkCrossAttentionDefault, LongNetViTCfg.default]⟩
    simp [LongNetViT.init, LongNetViTCfg.default, List.mem_replicate]

/-- C6 (amended): `num_heads` and `ff_dim` do configure the attention
head count and feed-forward width of every self-fusion block, and
`num_heads` that of every cross-fusion block; but the configured
`dropout` and `drop_path_rate` reach only the per-layer LongNet context
encoders — every constructed fusion block uses the hard-coded Python
defaults `dropout=0.1` and `drop_path=0.1` instead. -/
theorem C6_regularization_amended (cfg : LongNetViTCfg) :
    (∀ b ∈ (LongNetViT.init cfg).self_attention,
      b.dim = cfg.embed_dim ∧ b.num_heads = cfg.num_heads ∧ b.ff_dim = cfg.ff_dim ∧
      b.dropout = 1 / 10 ∧ b.drop_path = 1 / 10 ∧ b.init_values = 1 / 100000 ∧
      b.pre_norm = true) ∧
    (∀ b ∈ (LongNetViT.init cfg).cross_attention,
      b.embed_dim = cfg.embed_dim ∧ b.num_heads = cfg.num_heads ∧
      b.dropout = 1 / 10) ∧
    (∀ e ∈ (LongNetViT.init cfg).encoder_wsi,
      e.dropout = cfg.dropout ∧ e.drop_path_rate = cfg.drop_path_rate) ∧
    (LongNetViT.init cfg).self_attention.length = cfg.num_layers ∧
    (LongNetViT.init cfg).cross_attention.length = cfg.num_layers ∧
    (LongNetViT.init cfg).encoder_wsi.length = cfg.num_layers := by
  refine ⟨?_, ?_, ?_, by simp [LongNetViT.init], by simp [LongNetViT.init],
    by simp [LongNetViT.init]⟩
  · intro b hb
    have hb' := List.eq_of_mem_replicate (by simpa [LongNetViT.init] using hb)
    subst hb'
    simp [mkTransformerBlockDefault]
  · intro b hb
    have hb' := List.eq_of_mem_replicate (by simpa [LongNetViT.init] using hb)
    subst hb'
    simp [mkCrossAttentionDefault]
  · intro e he
    have he' := List.eq_of_mem_replicate (by simpa [LongNetViT.init] using he)
    subst he'
    exact ⟨rfl, rfl⟩

theorem C6_regularization_amended_witness :
    (∀ b ∈ (LongNetViT.init smallCfg).self_attention,
      b.dim = smallCfg.embed_dim ∧ b.num_heads = smallCfg.num_heads ∧
      b.ff_dim = smallCfg.ff_dim ∧ b.dropout = 1 / 10 ∧ b.drop_path = 1 / 10 ∧
      b.init_values = 1 / 100000 ∧ b.pre_norm = true) ∧
    (∀ b ∈ (LongNetViT.init smallCfg).cross_attention,
      b.embed_dim = smallCfg.embed_dim ∧ b.num_heads = smallCfg.num_heads ∧
      b.dropout = 1 / 10) ∧
    (∀ e ∈ (LongNetViT.init smallCfg).encoder_wsi,
      e.dropout = smallCfg.dropout ∧ e.drop_path_rate = smallCfg.drop_path_rate) ∧
    (LongNetViT.init smallCfg).self_attention.length = smallCfg.num_layers ∧
    (LongNetViT.init smallCfg).cross_attention.length = smallCfg.num_layers ∧
    (LongNetViT.init smallCfg).encoder_wsi.length = smallCfg.num_layers :=
  C6_regularization_amended smallCfg

/-- C7: the Cross-Fusion Block computes
`layer-norm(query + dropout(attention_output))`, the residual path being
the pre-attention query with no learned gate or scale applied, and the
`return_weights=True` variant returns the identical primary output next
to the attention weights of the same single attention call. -/
theorem C7_cross_fusion_residual (f : CrossAttentionFns) (training : Bool)
    (keep : ℕ → ℕ → ℕ → Bool) (q k v : Batch) (kpm : Option Mask) :
    (crossAttentionForwardW f training keep q k v kpm).1 =
      crossAttentionForward f training keep q k v kpm ∧
    crossAttentionForward f training keep q k v kpm =
      f.norm (batchAdd q (dropoutApply training keep f.dropoutProb
        (f.attn q k v kpm).1)) ∧
    (crossAttentionForwardW f training keep q k v kpm).2 = (f.attn q k v kpm).2 :=
  ⟨rfl, rfl, rfl⟩

theorem C7_cross_fusion_residual_witness :
    (crossAttentionForwardW idCAFns false (fun _ _ _ => true) [[[(1 : ℚ)]]]
        [[[(2 : ℚ)]]] [[[(3 : ℚ)]]] none).1 =
      crossAttentionForward idCAFns false (fun _ _ _ => true) [[[(1 : ℚ)]]]
        [[[(2 : ℚ)]]] [[[(3 : ℚ)]]] none ∧
    crossAttentionForward idCAFns false (fun _ _ _ => true) [[[(1 : ℚ)]]]
        [[[(2 : ℚ)]]] [[[(3 : ℚ)]]] none =
      idCAFns.norm (batchAdd [[[(1 : ℚ)]]]
        (dropoutApply false (fun _ _ _ => true) idCAFns.dropoutProb
          (idCAFns.attn [[[(1 : ℚ)]]] [[[(2 : ℚ)]]] [[[(3 : ℚ)]]] none).1)) ∧
    (crossAttentionForwardW idCAFns false (fun _ _ _ => true) [[[(1 : ℚ)]]]
        [[[(2 : ℚ)]]] [[[(3 : ℚ)]]] none).2 =
      (idCAFns.attn [[[(1 : ℚ)]]] [[[(2 : ℚ)]]] [[[(3 : ℚ)]]] none).2 :=
  C7_cross_fusion_residual idCAFns false (fun _ _ _ => true) [[[(1 : ℚ)]]]
    [[[(2 : ℚ)]]] [[[(3 : ℚ)]]] none

/-- C8: the position table is written exactly once, at construction, from
the deterministic (non-learned) 2D sinusoidal generator; it has `G²`
entries of dimension `D`; and `forward` — which only reads it through the
gather-and-add — returns the module state unchanged, because the method
body assigns to no attribute of `self`. -/
theorem C8_position_table (cfg : LongNetViTCfg) (fns : ModelFns) (training : Bool)
    (r : Rand) (querys contexts instructs : Batch) (coords : List (List (ℚ × ℚ)))
    (p : ℚ) (sam kpm : Option Mask) :
    (LongNetViT.init cfg).pos_embed =
      get_2d_sincos_pos_embed cfg.embed_dim cfg.slide_ngrids ∧
    (LongNetViT.init cfg).pos_embed.length = cfg.slide_ngrids * cfg.slide_ngrids ∧
    (∀ row ∈ (LongNetViT.init cfg).pos_embed, row.length = cfg.embed_dim) ∧
    (forwardSt (LongNetViT.init cfg) fns training r querys contexts instructs
        coords p sam kpm).2 = LongNetViT.init cfg := by
  refine ⟨rfl, ?_, ?_, rfl⟩
  · simp [LongNetViT.init, get_2d_sincos_pos_embed]
  · intro row hrow
    simp only [LongNetViT.init, get_2d_sincos_pos_embed] at hrow
    rcases List.mem_map.mp hrow with ⟨pq, _, rfl⟩
    simp

theorem C8_position_table_witness :
    smallM.pos_embed = get_2d_sincos_pos_embed smallCfg.embed_dim smallCfg.slide_ngrids ∧
    smallM.pos_embed.length = smallCfg.slide_ngrids * smallCfg.slide_ngrids ∧
    (∀ row ∈ smallM.pos_embed, row.length = smallCfg.embed_dim) ∧
    (forwardSt smallM idModelFns false constRand [[[(0 : ℚ), 0]]] [[[(0 : ℚ), 0]]]
        [[[(0 : ℚ), 0]]] [[((0 : ℚ), (0 : ℚ))]] 256 none none).2 = smallM :=
  C8_position_table smallCfg idModelFns false constRand [[[(0 : ℚ), 0]]]
    [[[(0 : ℚ), 0]]] [[[(0 : ℚ), 0]]] [[((0 : ℚ), (0 : ℚ))]] 256 none none

theorem dropPathMod_not_training (p : ℚ) (k : ℕ → Bool) (x : Batch) :
    dropPathMod p false k x = x := by
  simp [dropPathMod, dropPathApply]

theorem dropoutApply_not_training (k : ℕ → ℕ → ℕ → Bool) (p : ℚ) (x : Batch) :
    dropoutApply false k p x = x := by
  simp [dropoutApply]

theorem transformerBlockForward_not_training (f : TransformerBlockFns)
    (k1 k2 : ℕ → Bool) (x : Batch) (mm : Option Mask) :
    transformerBlockForward f false k1 k2 x mm = transformerBlockEval f x mm := by
  simp [transformerBlockForward, transformerBlockEval, dropPathMod_not_training]

theorem crossAttentionForward_not_training (f : CrossAttentionFns)
    (k : ℕ → ℕ → ℕ → Bool) (q key v : Batch) (kpm : Option Mask) :
    crossAttentionForward f false k q key v kpm = crossAttentionEval f q key v kpm := by
  simp [crossAttentionForward, crossAttentionEval, dropoutApply_not_training]

/-- C9: with stochastic depth and dropout disabled (training flag off),
the forward computation is independent of the streams of random draws —
two calls with identical inputs and identical parameters but arbitrary,
different draws produce identical outputs — and the module state
(the parameters and the position table) is returned unchanged. -/
theorem C9_eval_determinism (m : LongNetViTModules) (fns : ModelFns) (r1 r2 : Rand)
    (querys contexts instructs : Batch) (coords : List (List (ℚ × ℚ)))
    (p : ℚ) (sam kpm : Option Mask) :
    forward m fns false r1 querys contexts instructs coords p sam kpm =
      forward m fns false r2 querys contexts instructs coords p sam kpm ∧
    (forwardSt m fns false r1 querys contexts instructs coords p sam kpm).2 = m := by
  refine ⟨?_, rfl⟩
  simp only [forward, transformerBlockForward_not_training,
    crossAttentionForward_not_training]

theorem C9_eval_determinism_witness :
    forward smallM idModelFns false constRand [[[(0 : ℚ), 0]]] [[[(0 : ℚ), 0]]]
        [[[(0 : ℚ), 0]]] [[((0 : ℚ), (0 : ℚ))]] 256 none none =
      forward smallM idModelFns false
        { dp1 := fun _ _ => false, dp2 := fun _ _ => false,
          cdrop := fun _ _ _ _ => false }
        [[[(0 : ℚ), 0]]] [[[(0 : ℚ), 0]]] [[[(0 : ℚ), 0]]] [[((0 : ℚ), (0 : ℚ))]]
        256 none none ∧
    (forwardSt smallM idModelFns false constRand [[[(0 : ℚ), 0]]] [[[(0 : ℚ), 0]]]
        [[[(0 : ℚ), 0]]] [[((0 : ℚ), (0 : ℚ))]] 256 none none).2 = smallM :=
  C9_eval_determinism smallM idModelFns constRand
    { dp1 := fun _ _ => false, dp2 := fun _ _ => false, cdrop := fun _ _ _ _ => false }
    [[[(0 : ℚ), 0]]] [[[(0 : ℚ), 0]]] [[[(0 : ℚ), 0]]] [[((0 : ℚ), (0 : ℚ))]]
    256 none none

theorem C10_omitted_mask_is_none_witness :
    buildSelfMask [[[(7 : ℚ)]]] none = none ∧
    tbMaskArg (buildSelfMask [[[(7 : ℚ)]]] none) = none ∧
    excludedAt (tbMaskArg (buildSelfMask [[[(7 : ℚ)]]] none)) 0 1 = false :=
  C10_omitted_mask_is_none [[[(7 : ℚ)]]] 0 1

theorem C4_mask_convention_amended_witness :
    excludedAt (tbMaskArg (some [[(0 : ℚ), 3]])) 0 0 = true ↔
      (([[(0 : ℚ), 3]] : Mask).getD 0 []).getD 0 1 = 0 :=
  C4_mask_convention_amended [[(0 : ℚ), 3]] 0 0

/-! Shape-preservation lemmas for the C2 output-shape statement. -/

theorem matShape_matAdd {a b : Mat} {l d : ℕ}
    (ha : matShape a l d) (hb : matShape b l d) : matShape (matAdd a b) l d := by
  rcases ha with ⟨hal, ham⟩
  rcases hb with ⟨hbl, hbm⟩
  constructor
  · simp [matAdd, List.length_zipWith, hal, hbl]
  · intro v hv
    refine mem_zipWith_imp (f := vecAdd) (P := fun v => v.length = d) ?_ v hv
    intro u hu w hw
    simp [vecAdd, List.length_zipWith, ham u hu, hbm w hw]

theorem batchShape_batchAdd {x y : Batch} {n l d : ℕ}
    (hx : batchShape x n l d) (hy : batchShape y n l d) :
    batchShape (batchAdd x y) n l d := by
  rcases hx with ⟨hxl, hxm⟩
  rcases hy with ⟨hyl, hym⟩
  constructor
  · simp [batchAdd, List.length_zipWith, hxl, hyl]
  · intro m hm
    refine mem_zipWith_imp (f := matAdd) (P := fun m => matShape m l d) ?_ m hm
    intro a ha b hb
    exact matShape_matAdd (hxm a ha) (hym b hb)

theorem batchShape_batchCat {x y : Batch} {n l1 l2 d : ℕ}
    (hx : batchShape x n l1 d) (hy : batchShape y n l2 d) :
    batchShape (batchCat x y) n (l1 + l2) d := by
  rcases hx with ⟨hxl, hxm⟩
  rcases hy with ⟨hyl, hym⟩
  constructor
  · simp [batchCat, List.length_zipWith, hxl, hyl]
  · intro m hm
    refine mem_zipWith_imp (f := (· ++ ·)) (P := fun m => matShape m (l1 + l2) d)
      ?_ m hm
    intro a ha b hb
    rcases hxm a ha with ⟨hal, ham⟩
    rcases hym b hb with ⟨hbl, hbm⟩
    constructor
    · simp [hal, hbl]
    · intro v hv
      rcases List.mem_append.mp hv with h | h
      · exact ham v h
      · exact hbm v h

theorem batchShape_batchTake {x : Batch} {n l d : ℕ} (q : ℕ) (hq : q ≤ l)
    (hx : batchShape x n l d) : batchShape (batchTake q x) n q d := by
  rcases hx with ⟨hl, hm⟩
  constructor
  · simp [batchTake, hl]
  · intro m hm'
    rcases List.mem_map.mp hm' with ⟨a, ha, rfl⟩
    rcases hm a ha with ⟨hal, ham⟩
    constructor
    · simp [List.length_take, hal, Nat.min_eq_left hq]
    · intro v hv
      exact ham v (List.take_subset q a hv)

theorem batchShape_batchMap {x : Batch} {n l d : ℕ} (f : ℚ → ℚ)
    (hx : batchShape x n l d) : batchShape (batchMap f x) n l d := by
  rcases hx with ⟨hl, hm⟩
  constructor
  · simp [batchMap, hl]
  · intro m hm'
    rcases List.mem_map.mp hm' with ⟨a, ha, rfl⟩
    rcases hm a ha with ⟨hal, ham⟩
    constructor
    · simp [hal]
    · intro v hv
      rcases List.mem_map.mp hv with ⟨w, hw, rfl⟩
      simp [ham w hw]

theorem matShape_matSmul {m : Mat} {l d : ℕ} (c : ℚ)
    (h : matShape m l d) : matShape (matSmul c m) l d := by
  rcases h with ⟨hl, hm⟩
  constructor
  · simp [matSmul, hl]
  · intro v hv
    rcases List.mem_map.mp hv with ⟨w, hw, rfl⟩
    simp [hm w hw]

theorem batchShape_mapWithIdx {x : Batch} {n l d : ℕ} {f : ℕ → Mat → Mat}
    (hx : batchShape x n l d) (hf : ∀ k, ∀ m ∈ x, matShape (f k m) l d) :
    batchShape (mapWithIdx f x) n l d := by
  rcases hx with ⟨hl, hm⟩
  constructor
  · simp [mapWithIdx, List.length_zipWith, hl]
  · intro m hm'
    refine mem_zipWith_imp (f := f) (P := fun m => matShape m l d) ?_ m hm'
    intro k _ a ha
    exact hf k a ha

theorem batchShape_dropPathApply (training : Bool) (k : ℕ → Bool) (p : ℚ)
    {x : Batch} {n l d : ℕ} (hx : batchShape x n l d) :
    batchShape (dropPathApply training k p x) n l d := by
  unfold dropPathApply
  split_ifs
  · refine batchShape_mapWithIdx hx ?_
    intro kk m hm
    by_cases hkk : k kk
    · simpa [hkk] using matShape_matSmul (1 / (1 - p)) (hx.2 m hm)
    · simpa [hkk] using matShape_matSmul 0 (hx.2 m hm)
  · exact hx

theorem batchShape_dropPathMod (p : ℚ) (training : Bool) (k : ℕ → Bool)
    {x : Batch} {n l d : ℕ} (hx : batchShape x n l d) :
    batchShape (dropPathMod p training k x) n l d := by
  unfold dropPathMod
  split_ifs
  · exact batchShape_dropPathApply training k p hx
  · exact hx

theorem batchShape_dropoutApply (training : Bool) (k : ℕ → ℕ → ℕ → Bool) (p : ℚ)
    {x : Batch} {n l d : ℕ} (hx : batchShape x n l d) :
    batchShape (dropoutApply training k p x) n l d := by
  unfold dropoutApply
  split_ifs
  · refine batchShape_mapWithIdx hx ?_
    intro a m hm
    rcases hx.2 m hm with ⟨hml, hmm⟩
    constructor
    · simp [mapWithIdx, List.length_zipWith, hml]
    · intro v hv
      refine mem_zipWith_imp (P := fun v : Vec => v.length = d) ?_ v hv
      intro b _ w hw
      simp [mapWithIdx, List.length_zipWith, hmm w hw]
  · exact hx

theorem batchShape_transformerBlockForward (f : TransformerBlockFns)
    (training : Bool) (k1 k2 : ℕ → Bool) (mm : Option Mask)
    {x : Batch} {n l d : ℕ} (hx : batchShape x n l d)
    (hattn : ∀ y bm, batchShape y n l d → batchShape ((f.attention y bm).1) n l d)
    (hn1 : ∀ y, batchShape y n l d → batchShape (f.norm1 y) n l d)
    (hn2 : ∀ y, batchShape y n l d → batchShape (f.norm2 y) n l d)
    (hs1 : ∀ y, batchShape y n l d → batchShape (f.scale1 y) n l d)
    (hs2 : ∀ y, batchShape y n l d → batchShape (f.scale2 y) n l d)
    (hffn : ∀ y, batchShape y n l d → batchShape (f.ffn y) n l d) :
    batchShape (transformerBlockForward f training k1 k2 x mm) n l d := by
  unfold transformerBlockForward
  split_ifs
  · have hx1 : batchShape
        (batchAdd x (dropPathMod f.dropPathProb training k1
          (f.scale1 ((f.attention (f.norm1 x) (tbMaskArg mm)).1)))) n l d :=
      batchShape_batchAdd hx (batchShape_dropPathMod _ _ _
        (hs1 _ (hattn _ _ (hn1 _ hx))))
    exact batchShape_batchAdd hx1 (batchShape_dropPathMod _ _ _
      (hs2 _ (hffn _ (hn2 _ hx1))))
  · have hx1 : batchShape
        (batchAdd x (dropPathMod f.dropPathProb training k1
          (f.scale1 (f.norm1 ((f.attention x (tbMaskArg mm)).1))))) n l d :=
      batchShape_batchAdd hx (batchShape_dropPathMod _ _ _
        (hs1 _ (hn1 _ (hattn _ _ hx))))
    exact batchShape_batchAdd hx1 (batchShape_dropPathMod _ _ _
      (hs2 _ (hn2 _ (hffn _ hx1))))

theorem batchShape_crossAttentionForward (f : CrossAttentionFns) (training : Bool)
    (k : ℕ → ℕ → ℕ → Bool) (key v : Batch) (kpm : Option Mask)
    {q : Batch} {n l d : ℕ} (hq : batchShape q n l d)
    (hattn : batchShape ((f.attn q key v kpm).1) n l d)
    (hnorm : ∀ y, batchShape y n l d → batchShape (f.norm y) n l d) :
    batchShape (crossAttentionForward f training k q key v kpm) n l d := by
  unfold crossAttentionForward
  exact hnorm _ (batchShape_batchAdd hq (batchShape_dropoutApply _ _ _ hattn))

theorem gatherPos_shape {table : Mat} {pos : List (List ℤ)} {g : Batch}
    {n l d : ℕ} (hg : gatherPos table pos = some g)
    (hlen : pos.length = n) (hrows : ∀ row ∈ pos, row.length = l)
    (htab : ∀ row ∈ table, row.length = d) : batchShape g n l d := by
  rcases optTraverse_eq_some _ hg with ⟨hglen, hgmem⟩
  constructor
  · rw [hglen, hlen]
  · intro m hm
    rcases hgmem m hm with ⟨row, hrow, hrow_eq⟩
    rcases optTraverse_eq_some _ hrow_eq with ⟨hml, hmm⟩
    constructor
    · rw [hml, hrows row hrow]
    · intro v hv
      rcases hmm v hv with ⟨i, _, hfi⟩
      rcases Option.map_eq_some'.mp hfi with ⟨j, hj, rfl⟩
      have hjlt := torchIndex_some_lt _ _ _ hj
      have hmem : table.getD j [] ∈ table := by
        rw [List.getD_eq_getElem _ _ hjlt]
        exact List.getElem_mem hjlt
      exact htab _ hmem

theorem foldl_inv {σ : Type} {P : σ → Prop} {g : σ → ℕ → σ}
    (h : ∀ s i, P s → P (g s i)) :
    ∀ (l : List ℕ) (s : σ), P s → P (l.foldl g s) := by
  intro l
  induction l with
  | nil => intro s hs; simpa using hs
  | cons a t ih => intro s hs; simpa using ih _ (h s a hs)

/-- C2: each forward call runs, for every layer `i`, exactly the sequence
context-encoder, then self fusion over the concatenation of the current
query with the original (never reassigned) instruction tensor, then the
first `Q` positions of the self-fusion output as query into the `i`-th
cross-fusion block with the encoded context as keys and values; the final
query after the last cross fusion is returned through the reduced-
precision downcast. This is stated as (a) equality of `forward` with the
spec's section-4.6 algorithm `forwardSpec`, and (b) output shape
`[N, Q, D]` for any context length `L`, given the collaborators' shape
contracts. -/
theorem C2_layer_pipeline (m : LongNetViTModules) (fns : ModelFns) (training : Bool)
    (r : Rand) (querys contexts instructs : Batch) (coords : List (List (ℚ × ℚ)))
    (p : ℚ) (sam kpm : Option Mask) (N Q D I L : ℕ)
    (hq : batchShape querys N Q D) (hc : batchShape contexts N L D)
    (hi : batchShape instructs N I D) (hdim : dim1 querys = Q)
    (hclen : coords.length = N) (hcrows : ∀ row ∈ coords, row.length = L)
    (htab : ∀ row ∈ m.pos_embed, row.length = D)
    (henc : ∀ j y, batchShape y N L D →
      batchShape ((fns.layers j).encoder y kpm) N L D)
    (hattn : ∀ j y bm, batchShape y N (Q + I) D →
      batchShape (((fns.layers j).selfBlk.attention y bm).1) N (Q + I) D)
    (hn1 : ∀ j y, batchShape y N (Q + I) D →
      batchShape ((fns.layers j).selfBlk.norm1 y) N (Q + I) D)
    (hn2 : ∀ j y, batchShape y N (Q + I) D →
      batchShape ((fns.layers j).selfBlk.norm2 y) N (Q + I) D)
    (hs1 : ∀ j y, batchShape y N (Q + I) D →
      batchShape ((fns.layers j).selfBlk.scale1 y) N (Q + I) D)
    (hs2 : ∀ j y, batchShape y N (Q + I) D →
      batchShape ((fns.layers j).selfBlk.scale2 y) N (Q + I) D)
    (hffn : ∀ j y, batchShape y N (Q + I) D →
      batchShape ((fns.layers j).selfBlk.ffn y) N (Q + I) D)
    (hxattn : ∀ j y c1 c2, batchShape y N Q D →
      batchShape (((fns.layers j).crossBlk.attn y c1 c2 kpm).1) N Q D)
    (hxnorm : ∀ j y, batchShape y N Q D →
      batchShape ((fns.layers j).crossBlk.norm y) N Q D) :
    forward m fns training r querys contexts instructs coords p sam kpm =
      forwardSpec m fns training r querys contexts instructs coords p sam kpm ∧
    ∀ out, forward m fns training r querys contexts instructs coords p sam kpm =
      some out → batchShape out N Q D := by
  constructor
  · rfl
  · intro out hout
    simp only [forward, hdim] at hout
    cases hgather : gatherPos m.pos_embed (coords_to_pos m.slide_ngrids p coords) with
    | none => rw [hgather] at hout; simp at hout
    | some pe =>
      rw [hgather] at hout
      simp only [Option.map_some', Option.some.injEq] at hout
      subst hout
      have hposlen : (coords_to_pos m.slide_ngrids p coords).length = N := by
        simp [coords_to_pos, hclen]
      have hposrows : ∀ row ∈ coords_to_pos m.slide_ngrids p coords,
          row.length = L := by
        intro row hrow
        rcases List.mem_map.mp hrow with ⟨crow, hcrow, rfl⟩
        simp [hcrows crow hcrow]
      have hpe : batchShape pe N L D :=
        gatherPos_shape hgather hposlen hposrows htab
      have hstep : ∀ (st : Batch × Batch) (i : ℕ),
          (batchShape st.1 N Q D ∧ batchShape st.2 N L D) →
          (batchShape (crossAttentionForward (fns.layers i).crossBlk training
              (r.cdrop i)
              (batchTake Q (transformerBlockForward (fns.layers i).selfBlk training
                (r.dp1 i) (r.dp2 i) (batchCat st.1 instructs)
                (buildSelfMask querys sam)))
              ((fns.layers i).encoder st.2 kpm) ((fns.layers i).encoder st.2 kpm)
              kpm) N Q D ∧
            batchShape ((fns.layers i).encoder st.2 kpm) N L D) := by
        intro st i hst
        have hctx : batchShape ((fns.layers i).encoder st.2 kpm) N L D :=
          henc i st.2 hst.2
        have hcomb : batchShape (batchCat st.1 instructs) N (Q + I) D :=
          batchShape_batchCat hst.1 hi
        have hso : batchShape (transformerBlockForward (fns.layers i).selfBlk
            training (r.dp1 i) (r.dp2 i) (batchCat st.1 instructs)
            (buildSelfMask querys sam)) N (Q + I) D :=
          batchShape_transformerBlockForward _ _ _ _ _ hcomb (hattn i) (hn1 i)
            (hn2 i) (hs1 i) (hs2 i) (hffn i)
        have hq1 : batchShape (batchTake Q (transformerBlockForward
            (fns.layers i).selfBlk training (r.dp1 i) (r.dp2 i)
            (batchCat st.1 instructs) (buildSelfMask querys sam))) N Q D :=
          batchShape_batchTake Q (Nat.le_add_right Q I) hso
        exact ⟨batchShape_crossAttentionForward _ _ _ _ _ _ hq1
          (hxattn i _ _ _ hq1) (hxnorm i), hctx⟩
      have hfold := foldl_inv
        (P := fun st : Batch × Batch => batchShape st.1 N Q D ∧ batchShape st.2 N L D)
        (g := fun st i =>
          (crossAttentionForward (fns.layers i).crossBlk training (r.cdrop i)
            (batchTake Q (transformerBlockForward (fns.layers i).selfBlk training
              (r.dp1 i) (r.dp2 i) (batchCat st.1 instructs)
              (buildSelfMask querys sam)))
            ((fns.layers i).encoder st.2 kpm) ((fns.layers i).encoder st.2 kpm) kpm,
           (fns.layers i).encoder st.2 kpm))
        hstep (List.range m.num_layers) (querys, batchAdd contexts pe)
        ⟨hq, batchShape_batchAdd hc hpe⟩
      exact batchShape_batchMap _ hfold.1

theorem C2_layer_pipeline_witness :
    (batchShape [[[(0 : ℚ), 0]]] 1 1 2 ∧ dim1 [[[(0 : ℚ), 0]]] = 1 ∧
      (∀ row ∈ smallM.pos_embed, row.length = 2)) ∧
    (forward smallM idModelFns false constRand [[[(0 : ℚ), 0]]] [[[(0 : ℚ), 0]]]
        [[[(0 : ℚ), 0]]] [[((0 : ℚ), (0 : ℚ))]] 256 none none =
      forwardSpec smallM idModelFns false constRand [[[(0 : ℚ), 0]]]
        [[[(0 : ℚ), 0]]] [[[(0 : ℚ), 0]]] [[((0 : ℚ), (0 : ℚ))]] 256 none none ∧
      ∀ out, forward smallM idModelFns false constRand [[[(0 : ℚ), 0]]]
        [[[(0 : ℚ), 0]]] [[[(0 : ℚ), 0]]] [[((0 : ℚ), (0 : ℚ))]] 256 none none =
          some out → batchShape out 1 1 2) :=
  ⟨⟨by decide, by decide, by decide⟩,
    C2_layer_pipeline smallM idModelFns false constRand [[[(0 : ℚ), 0]]]
      [[[(0 : ℚ), 0]]] [[[(0 : ℚ), 0]]] [[((0 : ℚ), (0 : ℚ))]] 256 none none
      1 1 2 1 1 (by decide) (by decide) (by decide) (by decide) (by decide)
      (by decide) (by decide)
      (fun _j1 _y1 henc => henc) (fun _j2 _y2 _bm hat => hat)
      (fun _j3 _y3 hnorm => hnorm) (fun _j4 _y4 hnorm2 => hnorm2)
      (fun _j5 _y5 hsc1 => hsc1) (fun _j6 _y6 hsc2 => hsc2)
      (fun _j7 _y7 hmlp => hmlp) (fun _j8 _y8 _c1 _c2 hxa => hxa)
      (fun _j9 _y9 hxn => hxn)⟩

end Gigapath
